import Mathlib

/-!
Shallow embedding of the CommandHive bee-agent streaming bridge
(`src/agent.py`): the decoded Kafka message values, the content
classifier inside `main`'s message loop, the dispatch loop with
per-message error handling, the shutdown sequence in the `finally`
block, and `create_ssl_context`.
-/

/-- A decoded Python value as produced by `json.loads` (and as held in
`message.value` after the consumer's `value_deserializer`): `None`,
booleans, integers, strings, lists and string-keyed dicts.  Python
floats are not modelled; the JSON parser below rejects fractional or
exponent literals, narrowing the parse domain but never changing the
result on inputs both accept. -/
inductive PyValue where
  | none : PyValue
  | bool : Bool → PyValue
  | int : Int → PyValue
  | str : String → PyValue
  | list : List PyValue → PyValue
  | dict : List (String × PyValue) → PyValue

/-- Python truthiness (`if not message.value`, `if user_content`):
`None`, `False`, `0`, the empty string, the empty list and the empty
dict are falsy; everything else is truthy. -/
def PyValue.truthy : PyValue → Bool
  | .none => false
  | .bool b => b
  | .int n => n != 0
  | .str s => s ≠ ""
  | .list l => !l.isEmpty
  | .dict l => !l.isEmpty

/-- Python `d.get(k)`: the value bound to `k`, or `None` when the key is
absent.  Python dicts built by `json.loads` keep the last binding for a
duplicated key, so lookup scans the reversed association list. -/
def pyDictGet (kvs : List (String × PyValue)) (k : String) : PyValue :=
  match kvs.reverse.lookup k with
  | some v => v
  | Option.none => PyValue.none

/-- Python `k in d`: key membership. -/
def pyHasKey (kvs : List (String × PyValue)) (k : String) : Bool :=
  kvs.any (fun p => p.1 == k)

/-- Python `v == s` for a string literal `s` (as in
`message.value.get('type') == 'user_message'`): true exactly when `v`
is that string; a non-string value never equals a string in Python. -/
def PyValue.eqStr (v : PyValue) (s : String) : Bool :=
  match v with
  | .str t => t == s
  | _ => false

/-! ### A model of `json.loads`

The classifier's string branch calls `json.loads(message.value)`.  We
model it with an executable recursive-descent parser over the string's
characters.  The model narrows the parse domain in three documented
ways — it rejects `\uXXXX` escapes, fractional/exponent number
literals, and the `NaN`/`Infinity` extensions — and otherwise follows
the JSON grammar Python accepts (strict mode: raw control characters
inside strings are rejected, object keys are strings, no trailing
data). -/

def quoteChar : Char := Char.ofNat 34

def backslashChar : Char := Char.ofNat 92

def lbraceChar : Char := Char.ofNat 123

def rbraceChar : Char := Char.ofNat 125

/-- JSON insignificant whitespace: space, tab, newline, carriage return. -/
def skipWs : List Char → List Char
  | [] => []
  | c :: cs =>
    if c = ' ' || c = '\t' || c = '\n' || c = '\r' then skipWs cs else c :: cs

/-- JSON short escapes after a backslash (`\uXXXX` is not modelled). -/
def escChar (c : Char) : Option Char :=
  if c = quoteChar then some quoteChar
  else if c = backslashChar then some backslashChar
  else if c = '/' then some '/'
  else if c = 'n' then some '\n'
  else if c = 't' then some '\t'
  else if c = 'r' then some '\r'
  else if c = 'b' then some (Char.ofNat 8)
  else if c = 'f' then some (Char.ofNat 12)
  else Option.none

/-- Parse the body of a JSON string after its opening quote, returning
the decoded characters and the input remaining after the closing
quote. -/
def parseStringBody : List Char → Option (List Char × List Char)
  | [] => Option.none
  | c :: cs =>
    if c = quoteChar then some ([], cs)
    else if c = backslashChar then
      match cs with
      | [] => Option.none
      | e :: cs2 =>
        match escChar e with
        | some ch => (parseStringBody cs2).map (fun p => (ch :: p.1, p.2))
        | Option.none => Option.none
    else if c.toNat < 32 then Option.none
    else (parseStringBody cs).map (fun p => (c :: p.1, p.2))

/-- Longest prefix of decimal digits, with the rest of the input. -/
def spanDigits : List Char → List Char × List Char
  | [] => ([], [])
  | c :: cs =>
    if c.isDigit then
      let p := spanDigits cs
      (c :: p.1, p.2)
    else ([], c :: cs)

def digitsToNat (ds : List Char) : Nat :=
  ds.foldl (fun n c => n * 10 + (c.toNat - 48)) 0

/-- A valid JSON integer digit run: nonempty, and no leading zero
unless the number is exactly `0`. -/
def validIntDigits (ds : List Char) : Bool :=
  !ds.isEmpty && (ds.head? != some '0' || ds.length == 1)

/-- True when the input continues with a fraction or exponent; such
number literals are Python floats, which this model rejects. -/
def startsExt : List Char → Bool
  | [] => false
  | c :: _ => c = '.' || c = 'e' || c = 'E'

/-- Parse a JSON integer literal (optional minus sign, digit run). -/
def parseNumber (cs : List Char) : Option (PyValue × List Char) :=
  let p := match cs with
    | '-' :: rest => (true, rest)
    | _ => (false, cs)
  let q := spanDigits p.2
  if validIntDigits q.1 && !startsExt q.2 then
    let n : Int := Int.ofNat (digitsToNat q.1)
    some (.int (if p.1 then -n else n), q.2)
  else Option.none

mutual

/-- Fueled JSON value parser: value, then the remaining input.  The
fuel only bounds bracket nesting and element counts; `json_loads`
supplies more than any input of its length can consume. -/
def parseValue : Nat → List Char → Option (PyValue × List Char)
  | 0, _ => Option.none
  | Nat.succ fuel, cs =>
    match skipWs cs with
    | [] => Option.none
    | c :: rest =>
      if c = quoteChar then
        match parseStringBody rest with
        | some (s, r) => some (.str (String.mk s), r)
        | Option.none => Option.none
      else if c = '[' then
        match skipWs rest with
        | ']' :: r => some (.list [], r)
        | _ =>
          match parseElems fuel rest with
          | some (vs, r) => some (.list vs, r)
          | Option.none => Option.none
      else if c = lbraceChar then
        let r0 := skipWs rest
        if r0.head? = some rbraceChar then some (.dict [], r0.tail)
        else
          match parseMembers fuel rest with
          | some (kvs, r) => some (.dict kvs, r)
          | Option.none => Option.none
      else if c = 't' then
        match rest with
        | 'r' :: 'u' :: 'e' :: r => some (.bool true, r)
        | _ => Option.none
      else if c = 'f' then
        match rest with
        | 'a' :: 'l' :: 's' :: 'e' :: r => some (.bool false, r)
        | _ => Option.none
      else if c = 'n' then
        match rest with
        | 'u' :: 'l' :: 'l' :: r => some (.none, r)
        | _ => Option.none
      else if c = '-' || c.isDigit then parseNumber (c :: rest)
      else Option.none

/-- Comma-separated array elements up to the closing bracket. -/
def parseElems : Nat → List Char → Option (List PyValue × List Char)
  | 0, _ => Option.none
  | Nat.succ fuel, cs =>
    match parseValue fuel cs with
    | Option.none => Option.none
    | some (v, r) =>
      match skipWs r with
      | ',' :: r2 =>
        match parseElems fuel r2 with
        | some (vs, r3) => some (v :: vs, r3)
        | Option.none => Option.none
      | ']' :: r2 => some ([v], r2)
      | _ => Option.none

/-- Comma-separated `"key": value` object members up to the closing
brace. -/
def parseMembers : Nat → List Char → Option (List (String × PyValue) × List Char)
  | 0, _ => Option.none
  | Nat.succ fuel, cs =>
    match skipWs cs with
    | [] => Option.none
    | c :: rest =>
      if c = quoteChar then
        match parseStringBody rest with
        | Option.none => Option.none
        | some (k, r) =>
          match skipWs r with
          | ':' :: r2 =>
            match parseValue fuel r2 with
            | Option.none => Option.none
            | some (v, r3) =>
              match skipWs r3 with
              | ',' :: r4 =>
                match parseMembers fuel r4 with
                | some (kvs, r5) => some ((String.mk k, v) :: kvs, r5)
                | Option.none => Option.none
              | d :: r4 =>
                if d = rbraceChar then some ([(String.mk k, v)], r4)
                else Option.none
              | [] => Option.none
          | _ => Option.none
      else Option.none

end

/-- Model of Python `json.loads`: parse one JSON value and require
only whitespace to remain; any other outcome is a
`json.JSONDecodeError`. -/
def json_loads (s : String) : Except Unit PyValue :=
  match parseValue (2 * s.length + 8) s.data with
  | some (v, r) => if (skipWs r).isEmpty then .ok v else .error ()
  | Option.none => .error ()

/-! ### The content classifier (`agent.py` lines 176-192)

`main` computes `user_content` from `message.value`.  The dict branch
checks `message.value.get('type') == 'user_message'`, then
`== 'user'`, each together with `'content' in message.value`.  The
string branch parses the string with `json.loads`; on success it runs
`data_obj.get('type') in ['user_message', 'user'] and 'content' in
data_obj`, which raises `AttributeError` when `data_obj` is not a dict
(only `json.JSONDecodeError` is caught by the inner `except`); the
`else` branch and the `JSONDecodeError` handler both keep the whole
original string.  Any other value shape leaves `user_content = None`. -/

/-- An error escaping the classifier or the agent call, caught by the
per-message `except Exception` handler. -/
inductive PyError where
  | attributeError : PyError
  | agentError : PyError

/-- The condition under which a dict is a recognized user envelope:
`type` maps to the string `"user_message"` or `"user"`, and a
`content` key is present.  Both the dict branch (two `elif` arms) and
the string branch (membership in `['user_message', 'user']`) of the
source test exactly this. -/
def recognizedEnvelope (kvs : List (String × PyValue)) : Bool :=
  ((pyDictGet kvs "type").eqStr "user_message"
      || (pyDictGet kvs "type").eqStr "user")
    && pyHasKey kvs "content"

/-- The classifier: `Except.ok` carries the final `user_content`
(`Option.none` models Python's `user_content = None`), `Except.error`
models an exception propagating to the per-message handler. -/
def extract_user_content (v : PyValue) : Except PyError (Option PyValue) :=
  match v with
  | .dict kvs =>
    if (pyDictGet kvs "type").eqStr "user_message" && pyHasKey kvs "content" then
      .ok (some (pyDictGet kvs "content"))
    else if (pyDictGet kvs "type").eqStr "user" && pyHasKey kvs "content" then
      .ok (some (pyDictGet kvs "content"))
    else .ok Option.none
  | .str s =>
    match json_loads s with
    | .ok (.dict kvs) =>
      if recognizedEnvelope kvs then .ok (some (pyDictGet kvs "content"))
      else .ok (some (.str s))
    | .ok _ => .error .attributeError
    | .error _ => .ok (some (.str s))
  | _ => .ok Option.none

/-! ### The dispatch loop (`agent.py` lines 167-206)

Each loop iteration is modelled as the list of observable events it
produces, in order.  The agent capability `agent.assistant` is a
parameter that may fail; the per-message `try/except` turns any
failure (from classification or from the agent call) into a logged
error, after which the `async for` moves to the next message. -/

/-- Observable events of one loop iteration, in program order. -/
inductive Event where
  | logReceived : PyValue → Event
  | logUser : PyValue → Event
  | agentInvoked : PyValue → Event
  | logAssistant : String → Event
  | logError : Event

/-- One iteration of the message loop body for a delivered decoded
value `v`: skip silently when `v` is falsy; otherwise log the message,
classify, and when the extracted content is truthy log it, invoke the
agent, and log its response; any raised error is logged and the
iteration ends. -/
def processMessage (agent : PyValue → Except PyError String) (v : PyValue) :
    List Event :=
  if v.truthy then
    Event.logReceived v ::
      match extract_user_content v with
      | .error _ => [Event.logError]
      | .ok Option.none => []
      | .ok (some c) =>
        if c.truthy then
          Event.logUser c :: Event.agentInvoked c ::
            match agent c with
            | .ok r => [Event.logAssistant r]
            | .error _ => [Event.logError]
        else []
  else []

/-- The `async for` loop over a finite prefix of the delivered
messages, with the agent capability allowed to behave differently at
each delivery position: the per-message event lists, in delivery
order. -/
def runLoop (agent : Nat → PyValue → Except PyError String) :
    Nat → List PyValue → List (List Event)
  | _, [] => []
  | i, v :: rest => processMessage (agent i) v :: runLoop agent (i + 1) rest

/-- The flat event trace of the loop, each event tagged with the
delivery index of the message that produced it. -/
def loopTrace (agent : Nat → PyValue → Except PyError String) :
    Nat → List PyValue → List (Nat × Event)
  | _, [] => []
  | i, v :: rest =>
    (processMessage (agent i) v).map (fun e => (i, e))
      ++ loopTrace agent (i + 1) rest

/-- The consumer's `value_deserializer`
(`lambda m: json.loads(m.decode('utf-8')) if m else None`): an empty
payload decodes to `None`, anything else is parsed as JSON. -/
def value_deserializer (m : String) : Except Unit PyValue :=
  if m = "" then .ok .none else json_loads m

/-! ### Shutdown (`agent.py` lines 208-215)

The `try` around the loop catches `KeyboardInterrupt` and `Exception`
(each logged) and then runs the `finally` block:
`await consumer.stop()`, `await producer.stop()`, and a final log
line, sequentially and with no surrounding `try/except` — an
exception from `consumer.stop()` therefore propagates out of the
`finally` and `producer.stop()` is never reached. -/

/-- How the loop ended: the consumer iterator was exhausted, a
`KeyboardInterrupt` arrived, or a fatal error escaped the loop. -/
inductive ExitPath where
  | exhausted : ExitPath
  | interrupt : ExitPath
  | fatal : ExitPath

/-- Observable events on the way out of `main`. -/
inductive ShutEvent where
  | logInterrupt : ShutEvent
  | logFatal : ShutEvent
  | consumerStopAttempt : ShutEvent
  | producerStopAttempt : ShutEvent
  | logStopped : ShutEvent
deriving DecidableEq

/-- The `finally` block, parameterised by whether each `stop()` call
raises: the events that occur, and whether an exception escapes the
block. -/
def runFinally (consumerStopFails producerStopFails : Bool) :
    List ShutEvent × Bool :=
  if consumerStopFails then ([ShutEvent.consumerStopAttempt], true)
  else if producerStopFails then
    ([ShutEvent.consumerStopAttempt, ShutEvent.producerStopAttempt], true)
  else
    ([ShutEvent.consumerStopAttempt, ShutEvent.producerStopAttempt,
      ShutEvent.logStopped], false)

/-- The exit sequence of `main` from the moment the loop ends: the
matching `except` handler's log line, then the `finally` block. -/
def mainExit (path : ExitPath) (consumerStopFails producerStopFails : Bool) :
    List ShutEvent × Bool :=
  let pre : List ShutEvent :=
    match path with
    | .exhausted => []
    | .interrupt => [ShutEvent.logInterrupt]
    | .fatal => [ShutEvent.logFatal]
  let f := runFinally consumerStopFails producerStopFails
  (pre ++ f.1, f.2)

/-! ### Transport security (`agent.py` lines 26-32, `create_ssl_context`)

`ssl.SSLContext(ssl.PROTOCOL_TLS_CLIENT)` starts with hostname
checking on, certificate verification required, no `OP_NO_*` protocol
flags and no loaded trust anchors; the function then sets
`OP_NO_SSLv2 | OP_NO_SSLv3`, turns off `check_hostname`, sets
`verify_mode = CERT_NONE` and calls `load_default_certs()`.  Protocol
admission follows the documented `ssl` semantics: `PROTOCOL_TLS_CLIENT`
negotiates any supported version not excluded by an `OP_NO_*` flag. -/

inductive VerifyMode where
  | cert_none : VerifyMode
  | cert_optional : VerifyMode
  | cert_required : VerifyMode
deriving DecidableEq

inductive TLSVersion where
  | sslv2 : TLSVersion
  | sslv3 : TLSVersion
  | tls1_0 : TLSVersion
  | tls1_1 : TLSVersion
  | tls1_2 : TLSVersion
  | tls1_3 : TLSVersion
deriving DecidableEq

structure SSLContext where
  check_hostname : Bool
  verify_mode : VerifyMode
  op_no_sslv2 : Bool
  op_no_sslv3 : Bool
  op_no_tlsv1 : Bool
  op_no_tlsv1_1 : Bool
  op_no_tlsv1_2 : Bool
  op_no_tlsv1_3 : Bool
  default_certs_loaded : Bool
deriving DecidableEq

/-- A fresh `ssl.SSLContext(ssl.PROTOCOL_TLS_CLIENT)`. -/
def newTLSClientContext : SSLContext where
  check_hostname := true
  verify_mode := .cert_required
  op_no_sslv2 := false
  op_no_sslv3 := false
  op_no_tlsv1 := false
  op_no_tlsv1_1 := false
  op_no_tlsv1_2 := false
  op_no_tlsv1_3 := false
  default_certs_loaded := false

/-- `create_ssl_context` from the source, as the sequence of mutations
it performs on a fresh client context. -/
def create_ssl_context : SSLContext :=
  let ctx := newTLSClientContext
  let ctx := { ctx with op_no_sslv2 := true, op_no_sslv3 := true }
  let ctx := { ctx with check_hostname := false }
  let ctx := { ctx with verify_mode := .cert_none }
  { ctx with default_certs_loaded := true }

/-- Whether a context admits negotiating a protocol version:
`PROTOCOL_TLS_CLIENT` admits every version its library supports except
those excluded by an `OP_NO_*` option bit. -/
def SSLContext.allowsVersion (ctx : SSLContext) : TLSVersion → Bool
  | .sslv2 => !ctx.op_no_sslv2
  | .sslv3 => !ctx.op_no_sslv3
  | .tls1_0 => !ctx.op_no_tlsv1
  | .tls1_1 => !ctx.op_no_tlsv1_1
  | .tls1_2 => !ctx.op_no_tlsv1_2
  | .tls1_3 => !ctx.op_no_tlsv1_3

/-! ### Concrete payloads used in counterexamples and witnesses -/

/-- The JSON text of an unrecognized (`"type": "system"`) envelope. -/
def sysEnvelopeStr : String :=
  "\x7b\"type\":\"system\",\"content\":\"ping\"\x7d"

/-- The decoded form of `sysEnvelopeStr`. -/
def sysEnvelopeDict : List (String × PyValue) :=
  [("type", .str "system"), ("content", .str "ping")]

/-- The JSON text of a recognized (`"type": "user"`) envelope. -/
def userEnvelopeStr : String :=
  "\x7b\"type\":\"user\",\"content\":\"hi\"\x7d"

/-- The decoded form of `userEnvelopeStr`. -/
def userEnvelopeDict : List (String × PyValue) :=
  [("type", .str "user"), ("content", .str "hi")]

/-! ## Helper lemmas -/

/-- The dict branch of the classifier collapses to a single test of
`recognizedEnvelope`. -/
theorem extract_dict_eq (kvs : List (String × PyValue)) :
    extract_user_content (.dict kvs) =
      if recognizedEnvelope kvs then .ok (some (pyDictGet kvs "content"))
      else .ok Option.none := by
  unfold extract_user_content recognizedEnvelope
  cases h1 : (pyDictGet kvs "type").eqStr "user_message" <;>
    cases h2 : (pyDictGet kvs "type").eqStr "user" <;>
    cases h3 : pyHasKey kvs "content" <;> simp [h1, h2, h3]

/-- A message on which the classifier returns `None` produces at most
the received-message log line. -/
theorem processMessage_of_none (agent : PyValue → Except PyError String)
    (v : PyValue) (h : extract_user_content v = .ok Option.none) :
    processMessage agent v = if v.truthy then [Event.logReceived v] else [] := by
  unfold processMessage
  rw [h]

/-- A message on which the classifier raises produces the
received-message log line followed by the error log line. -/
theorem processMessage_of_error (agent : PyValue → Except PyError String)
    (v : PyValue) (e : PyError) (h : extract_user_content v = .error e) :
    processMessage agent v =
      if v.truthy then [Event.logReceived v, Event.logError] else [] := by
  unfold processMessage
  rw [h]

/-- A message with extracted but falsy content produces at most the
received-message log line: the `if user_content:` test fails. -/
theorem processMessage_of_falsy_content (agent : PyValue → Except PyError String)
    (v c : PyValue) (h : extract_user_content v = .ok (some c))
    (hc : c.truthy = false) :
    processMessage agent v = if v.truthy then [Event.logReceived v] else [] := by
  unfold processMessage
  rw [h]
  simp [hc]

/-- A dict with a `content` key is nonempty, hence truthy. -/
theorem truthy_of_hasKey (kvs : List (String × PyValue))
    (h : pyHasKey kvs "content" = true) : (PyValue.dict kvs).truthy = true := by
  cases kvs with
  | nil => simp [pyHasKey] at h
  | cons p rest => simp [PyValue.truthy]

/-- The loop body depends on the agent capability only through its
value at the extracted content. -/
theorem processMessage_congr (f g : PyValue → Except PyError String)
    (v : PyValue) (h : ∀ c, f c = g c) :
    processMessage f v = processMessage g v := by
  have hfg : f = g := funext h
  rw [hfg]

/-- The loop processes exactly one iteration per delivered message. -/
theorem runLoop_length (agent : Nat → PyValue → Except PyError String)
    (i : Nat) (msgs : List PyValue) :
    (runLoop agent i msgs).length = msgs.length := by
  induction msgs generalizing i with
  | nil => rfl
  | cons v rest ih => simp [runLoop, ih]

/-- The iteration at position `j` is exactly the loop body applied to
message `j` with the agent's behaviour at position `i + j`. -/
theorem runLoop_getElem (agent : Nat → PyValue → Except PyError String)
    (i j : Nat) (msgs : List PyValue) (v : PyValue)
    (h : msgs[j]? = some v) :
    (runLoop agent i msgs)[j]? = some (processMessage (agent (i + j)) v) := by
  induction msgs generalizing i j with
  | nil => simp at h
  | cons w rest ih =>
    cases j with
    | zero =>
      rw [List.getElem?_cons_zero] at h
      cases h
      simp [runLoop]
    | succ j2 =>
      rw [List.getElem?_cons_succ] at h
      have h2 := ih (i + 1) j2 h
      have harith : i + 1 + j2 = i + (j2 + 1) := by omega
      rw [harith] at h2
      simp only [runLoop, List.getElem?_cons_succ]
      exact h2

/-- A list is pairwise related by a relation that holds everywhere. -/
theorem pairwise_triv {α : Type} {R : α → α → Prop} (hR : ∀ a b, R a b) :
    ∀ l : List α, l.Pairwise R
  | [] => List.Pairwise.nil
  | a :: l => List.Pairwise.cons (fun b _ => hR a b) (pairwise_triv hR l)

/-- Every event in the flat loop trace carries the delivery index of a
message at or after the starting index and within the batch. -/
theorem loopTrace_tag_bounds (agent : Nat → PyValue → Except PyError String)
    (i : Nat) (msgs : List PyValue) :
    ∀ p ∈ loopTrace agent i msgs, i ≤ p.1 ∧ p.1 < i + msgs.length := by
  induction msgs generalizing i with
  | nil => intro p hp; simp [loopTrace] at hp
  | cons v rest ih =>
    intro p hp
    simp only [loopTrace, List.mem_append] at hp
    cases hp with
    | inl hp =>
      rcases List.mem_map.mp hp with ⟨e, _, he⟩
      subst he
      refine ⟨Nat.le_refl i, ?_⟩
      simp only [List.length_cons]
      omega
    | inr hp =>
      have hb := ih (i + 1) p hp
      refine ⟨by omega, ?_⟩
      simp only [List.length_cons]
      omega

/-- The delivery indices tagging the flat loop trace never decrease. -/
theorem loopTrace_pairwise (agent : Nat → PyValue → Except PyError String)
    (i : Nat) (msgs : List PyValue) :
    (loopTrace agent i msgs).Pairwise (fun a b => a.1 ≤ b.1) := by
  induction msgs generalizing i with
  | nil => exact List.Pairwise.nil
  | cons v rest ih =>
    simp only [loopTrace]
    apply List.pairwise_append.mpr
    refine ⟨?_, ih (i + 1), ?_⟩
    · rw [List.pairwise_map]
      exact pairwise_triv (fun a b => Nat.le_refl i) _
    · intro a ha b hb
      rcases List.mem_map.mp ha with ⟨e, _, he⟩
      subst he
      have hbnd := loopTrace_tag_bounds agent (i + 1) rest b hb
      omega

/-! ## Claim theorems -/

/-- C1: for a delivered structured mapping, the classifier returns the
value of the `content` field exactly when the `type` tag is
`"user_message"` or `"user"` and a `content` key is present; a mapping
with no recognized tag or no `content` key yields absent content and
is skipped with no agent invocation. -/
theorem extract_dict_content_iff (kvs : List (String × PyValue)) :
    (∀ x, extract_user_content (.dict kvs) = .ok (some x) ↔
        (recognizedEnvelope kvs = true ∧ x = pyDictGet kvs "content")) ∧
    (recognizedEnvelope kvs = false →
      extract_user_content (.dict kvs) = .ok Option.none ∧
      ∀ (agent : PyValue → Except PyError String) (c : PyValue),
        Event.agentInvoked c ∉ processMessage agent (.dict kvs)) := by
  constructor
  · intro x
    rw [extract_dict_eq]
    cases hr : recognizedEnvelope kvs <;> simp [eq_comm]
  · intro hr
    have he : extract_user_content (.dict kvs) = .ok Option.none := by
      simp [extract_dict_eq, hr]
    refine ⟨he, fun agent c => ?_⟩
    rw [processMessage_of_none agent _ he]
    cases (PyValue.dict kvs).truthy <;> simp

/-- Witness for C1 at the spec's scenario input
`'type': 'system', 'content': 'ping'`. -/
theorem extract_dict_content_iff_witness :
    extract_user_content (.dict sysEnvelopeDict) = .ok Option.none ∧
    Event.agentInvoked (.str "ping") ∉
      processMessage (fun _ => .ok "r") (.dict sysEnvelopeDict) := by
  have h := (extract_dict_content_iff sysEnvelopeDict).2 (by rfl)
  exact ⟨h.1, h.2 _ _⟩

/-- C5: a delivered plain string that is not valid JSON is forwarded
verbatim as the extracted content. -/
theorem extract_invalid_json_verbatim (s : String)
    (h : json_loads s = .error ()) :
    extract_user_content (.str s) = .ok (some (.str s)) := by
  simp [extract_user_content, h]

/-- Witness for C5 at the spec's scenario input, the bare string
`hello`. -/
theorem extract_invalid_json_verbatim_witness :
    json_loads "hello" = .error () ∧
    extract_user_content (.str "hello") = .ok (some (.str "hello")) :=
  ⟨rfl, extract_invalid_json_verbatim "hello" rfl⟩

/-- C8: a recognized envelope whose `content` value is falsy (empty
string, `0`, `False`, `None`, empty list or dict) is extracted but
never dispatched: `if user_content:` tests truthiness, so the agent is
not invoked and only the received-message line is logged. -/
theorem falsy_content_not_dispatched (kvs : List (String × PyValue))
    (hrec : recognizedEnvelope kvs = true)
    (hfalsy : (pyDictGet kvs "content").truthy = false) :
    extract_user_content (.dict kvs) = .ok (some (pyDictGet kvs "content")) ∧
    ∀ agent : PyValue → Except PyError String,
      processMessage agent (.dict kvs) = [Event.logReceived (.dict kvs)] ∧
      ∀ c, Event.agentInvoked c ∉ processMessage agent (.dict kvs) := by
  have he : extract_user_content (.dict kvs) = .ok (some (pyDictGet kvs "content")) := by
    simp [extract_dict_eq, hrec]
  have ht : (PyValue.dict kvs).truthy = true := by
    apply truthy_of_hasKey
    simp only [recognizedEnvelope, Bool.and_eq_true] at hrec
    exact hrec.2
  refine ⟨he, fun agent => ?_⟩
  have hp := processMessage_of_falsy_content agent _ _ he hfalsy
  rw [ht] at hp
  simp only [if_true] at hp
  exact ⟨hp, fun c => by rw [hp]; simp⟩

/-- Witness for C8: a recognized `user` envelope with empty `content`. -/
theorem falsy_content_not_dispatched_witness :
    extract_user_content
        (.dict [("type", PyValue.str "user"), ("content", PyValue.str "")]) =
      .ok (some (PyValue.str "")) ∧
    processMessage (fun _ => .ok "r")
        (.dict [("type", PyValue.str "user"), ("content", PyValue.str "")]) =
      [Event.logReceived
        (.dict [("type", PyValue.str "user"), ("content", PyValue.str "")])] := by
  have h := falsy_content_not_dispatched
    [("type", PyValue.str "user"), ("content", PyValue.str "")]
    (by rfl) (by decide)
  exact ⟨h.1, (h.2 _).1⟩

/-- C9: a delivered plain string that is valid JSON for a non-mapping
value makes the classifier raise `AttributeError` (`data_obj.get` on a
non-dict; only `json.JSONDecodeError` is caught locally); the
per-message handler logs the error and the message is skipped, not
treated as verbatim content, with no agent invocation. -/
theorem json_string_nonmapping_raises (s : String) (d : PyValue)
    (hp : json_loads s = .ok d) (hd : ∀ kvs, d ≠ .dict kvs) :
    extract_user_content (.str s) = .error .attributeError ∧
    (∀ agent : PyValue → Except PyError String,
      processMessage agent (.str s) =
        [Event.logReceived (.str s), Event.logError]) ∧
    (∀ (agent : PyValue → Except PyError String) (c : PyValue),
      Event.agentInvoked c ∉ processMessage agent (.str s)) := by
  have hs : s ≠ "" := by
    intro he
    subst he
    rw [show json_loads "" = Except.error () from rfl] at hp
    exact Except.noConfusion hp
  have hex : extract_user_content (.str s) = .error .attributeError := by
    simp only [extract_user_content]
    rw [hp]
    cases d with
    | dict kvs => exact absurd rfl (hd kvs)
    | none => rfl
    | bool b => rfl
    | int n => rfl
    | str t => rfl
    | list l => rfl
  have ht : (PyValue.str s).truthy = true := by
    simp [PyValue.truthy, hs]
  refine ⟨hex, fun agent => ?_, fun agent c => ?_⟩
  · rw [processMessage_of_error agent _ _ hex]
    simp [ht]
  · rw [processMessage_of_error agent _ _ hex]
    cases (PyValue.str s).truthy <;> simp

/-- Witness for C9 at the JSON number `42`. -/
theorem json_string_nonmapping_raises_witness :
    extract_user_content (.str "42") = .error .attributeError ∧
    processMessage (fun _ => .ok "r") (.str "42") =
      [Event.logReceived (.str "42"), Event.logError] := by
  have h := json_string_nonmapping_raises "42" (.int 42) (by rfl)
    (fun kvs hk => PyValue.noConfusion hk)
  exact ⟨h.1, h.2.1 _⟩

/-- C10: a delivered message whose decoded value is falsy (`None` from
an empty payload, empty string, empty dict, `0` or `False`) is skipped
by `if not message.value: continue` before any logging or
classification, producing no events at all; the consumer's
deserializer maps an empty payload to `None`. -/
theorem falsy_message_skipped_silently
    (agent : PyValue → Except PyError String) (v : PyValue)
    (h : v.truthy = false) :
    processMessage agent v = [] ∧ value_deserializer "" = .ok PyValue.none := by
  refine ⟨?_, rfl⟩
  simp [processMessage, h]

/-- Witness for C10 at the decoded value `None`. -/
theorem falsy_message_skipped_silently_witness :
    processMessage (fun _ => .ok "r") PyValue.none = [] ∧
    value_deserializer "" = .ok PyValue.none :=
  falsy_message_skipped_silently (fun _ => .ok "r") PyValue.none rfl

/-- C2 counterexample: a plain string that is valid JSON for an
unrecognized envelope does NOT behave like delivering the decoded
mapping.  The decoded dict yields absent content (skip), but the
string branch's `else: user_content = message.value` keeps the whole
original string, so the classifier outputs differ. -/
theorem json_roundtrip_not_identical :
    json_loads sysEnvelopeStr = .ok (.dict sysEnvelopeDict) ∧
    extract_user_content (.dict sysEnvelopeDict) = .ok Option.none ∧
    extract_user_content (.str sysEnvelopeStr) =
      .ok (some (.str sysEnvelopeStr)) ∧
    extract_user_content (.str sysEnvelopeStr) ≠
      extract_user_content (.dict sysEnvelopeDict) := by
  refine ⟨rfl, rfl, rfl, fun h => ?_⟩
  rw [show extract_user_content (.str sysEnvelopeStr) =
        .ok (some (.str sysEnvelopeStr)) from rfl,
      show extract_user_content (.dict sysEnvelopeDict) =
        .ok Option.none from rfl] at h
  exact Option.noConfusion (Except.ok.inj h)

/-- C2 (amended): for a plain string that parses as a structured
mapping, a recognized envelope yields its `content` field exactly as
if the decoded mapping had been delivered; an unrecognized envelope
instead yields the entire original string verbatim (where direct
delivery of the mapping would yield absent content). -/
theorem extract_json_string_amended (s : String)
    (kvs : List (String × PyValue))
    (h : json_loads s = .ok (.dict kvs)) :
    (recognizedEnvelope kvs = true →
      extract_user_content (.str s) = .ok (some (pyDictGet kvs "content")) ∧
      extract_user_content (.str s) = extract_user_content (.dict kvs)) ∧
    (recognizedEnvelope kvs = false →
      extract_user_content (.str s) = .ok (some (.str s))) := by
  have hstep : extract_user_content (.str s) =
      if recognizedEnvelope kvs then .ok (some (pyDictGet kvs "content"))
      else .ok (some (.str s)) := by
    simp only [extract_user_content]
    rw [h]
  constructor
  · intro hr
    rw [hstep, extract_dict_eq]
    simp [hr]
  · intro hr
    rw [hstep]
    simp [hr]

/-- Witness for the amended C2 at the spec's scenario input, the
JSON-encoded string of a `user` envelope with content `hi`. -/
theorem extract_json_string_amended_witness :
    extract_user_content (.str userEnvelopeStr) =
      .ok (some (PyValue.str "hi")) ∧
    extract_user_content (.str userEnvelopeStr) =
      extract_user_content (.dict userEnvelopeDict) := by
  have h := (extract_json_string_amended userEnvelopeStr userEnvelopeDict
    (by rfl)).1 (by rfl)
  exact ⟨h.1, h.2⟩

/-- C4 counterexample: the `finally` block has no internal exception
handling, so when `consumer.stop()` raises, `producer.stop()` is never
attempted and the stop failure propagates instead of being logged. -/
theorem shutdown_stop_failure_skips_producer :
    ShutEvent.producerStopAttempt ∉ (mainExit .exhausted true false).1 ∧
    (mainExit .exhausted true false).2 = true := by
  constructor
  · decide
  · rfl

/-- C4 (amended): on every exit path of the loop the `finally` block
runs; `consumer.stop()` is always attempted exactly once, and
`producer.stop()` is attempted exactly once provided `consumer.stop()`
does not raise — but a raising `consumer.stop()` skips the producer
stop entirely and re-raises. -/
theorem shutdown_sequence_amended (path : ExitPath) (c p : Bool) :
    (mainExit path c p).1.count ShutEvent.consumerStopAttempt = 1 ∧
    (c = false →
      (mainExit path c p).1.count ShutEvent.producerStopAttempt = 1) ∧
    (c = true →
      ShutEvent.producerStopAttempt ∉ (mainExit path c p).1 ∧
      (mainExit path c p).2 = true) := by
  cases path <;> cases c <;> cases p <;> decide

/-- Witness for the amended C4 on the interrupt exit path with a
failing producer stop. -/
theorem shutdown_sequence_amended_witness :
    (mainExit .interrupt false true).1.count ShutEvent.consumerStopAttempt = 1 ∧
    (mainExit .interrupt false true).1.count ShutEvent.producerStopAttempt = 1 :=
  ⟨(shutdown_sequence_amended .interrupt false true).1,
   (shutdown_sequence_amended .interrupt false true).2.1 rfl⟩

/-- C6 counterexample: `create_ssl_context` only sets `OP_NO_SSLv2`
and `OP_NO_SSLv3`; nothing constrains the minimum TLS version, so the
returned context still admits TLS 1.0 and TLS 1.1 — it is not
"TLS 1.2+ only". -/
theorem ssl_context_allows_legacy_tls :
    create_ssl_context.allowsVersion .tls1_0 = true ∧
    create_ssl_context.allowsVersion .tls1_1 = true := by
  decide

/-- C6 (amended): `create_ssl_context` is a pure constant function of
its (empty) configuration, and the context it returns disables SSLv2
and SSLv3 (but no other protocol versions), disables hostname
verification, disables peer-certificate verification, and loads the
default trust anchors. -/
theorem ssl_context_fields :
    create_ssl_context.op_no_sslv2 = true ∧
    create_ssl_context.op_no_sslv3 = true ∧
    create_ssl_context.allowsVersion .sslv2 = false ∧
    create_ssl_context.allowsVersion .sslv3 = false ∧
    create_ssl_context.allowsVersion .tls1_2 = true ∧
    create_ssl_context.allowsVersion .tls1_3 = true ∧
    create_ssl_context.check_hostname = false ∧
    create_ssl_context.verify_mode = VerifyMode.cert_none ∧
    create_ssl_context.default_certs_loaded = true := by
  decide

/-- C3: per-message failure isolation.  The loop runs one iteration
per delivered message (never terminating early because some message's
processing raised), iteration `j` is exactly the loop body on message
`j`, iterations other than `k` are unaffected by how the agent behaves
at position `k`, and a raised error — whether from classification or
from the agent call — is caught and logged within its own iteration. -/
theorem dispatch_per_message_isolation
    (agent agent' : Nat → PyValue → Except PyError String)
    (msgs : List PyValue) (k : Nat)
    (h : ∀ (j : Nat) (c : PyValue), j ≠ k → agent j c = agent' j c) :
    (runLoop agent 0 msgs).length = msgs.length ∧
    (∀ j v, msgs[j]? = some v →
      (runLoop agent 0 msgs)[j]? = some (processMessage (agent j) v)) ∧
    (∀ j, j ≠ k →
      (runLoop agent 0 msgs)[j]? = (runLoop agent' 0 msgs)[j]?) ∧
    (∀ (f : PyValue → Except PyError String) (v : PyValue) (e : PyError),
      v.truthy = true → extract_user_content v = .error e →
      Event.logError ∈ processMessage f v) ∧
    (∀ (f : PyValue → Except PyError String) (v c : PyValue) (e : PyError),
      v.truthy = true → extract_user_content v = .ok (some c) →
      c.truthy = true → f c = .error e →
      Event.logError ∈ processMessage f v) := by
  refine ⟨runLoop_length agent 0 msgs, ?_, ?_, ?_, ?_⟩
  · intro j v hv
    have h1 := runLoop_getElem agent 0 j msgs v hv
    simpa using h1
  · intro j hj
    cases hv : msgs[j]? with
    | none =>
      have hge : msgs.length ≤ j := List.getElem?_eq_none_iff.mp hv
      rw [List.getElem?_eq_none_iff.mpr (by rw [runLoop_length]; exact hge),
        List.getElem?_eq_none_iff.mpr (by rw [runLoop_length]; exact hge)]
    | some v =>
      have h1 := runLoop_getElem agent 0 j msgs v hv
      have h2 := runLoop_getElem agent' 0 j msgs v hv
      simp only [Nat.zero_add] at h1 h2
      rw [h1, h2]
      exact congrArg some (processMessage_congr _ _ v (fun c => h j c hj))
  · intro f v e hv he
    rw [processMessage_of_error f v e he, hv]
    simp
  · intro f v c e hv he hc hf
    simp [processMessage, hv, he, hc, hf]

/-- Witness for C3: three messages, an agent failing exactly on the
middle delivery; the loop still runs three iterations and the first
iteration matches the one produced under a never-failing agent. -/
theorem dispatch_per_message_isolation_witness :
    (runLoop
        (fun j _ => if j = 1 then Except.error PyError.agentError
          else Except.ok "r") 0
        [PyValue.str "a", PyValue.str "b", PyValue.str "c"]).length = 3 ∧
    (runLoop
        (fun j _ => if j = 1 then Except.error PyError.agentError
          else Except.ok "r") 0
        [PyValue.str "a", PyValue.str "b", PyValue.str "c"])[0]? =
      (runLoop (fun _ _ => Except.ok "r") 0
        [PyValue.str "a", PyValue.str "b", PyValue.str "c"])[0]? := by
  have h := dispatch_per_message_isolation
    (fun j _ => if j = 1 then Except.error PyError.agentError
      else Except.ok "r")
    (fun _ _ => Except.ok "r")
    [PyValue.str "a", PyValue.str "b", PyValue.str "c"] 1
    (by intro j c hj; simp [hj])
  exact ⟨h.1, h.2.2.1 0 (by decide)⟩

/-- C7: the dispatch loop handles messages strictly one at a time and
in delivery order.  Tagging every event of the flat trace with the
index of the message that produced it, the tags are pairwise
nondecreasing (no reordering and no interleaving of two messages'
events, so the agent call for message `k` completes before any event
of message `k + 1`, including its received-message log), every tag
identifies a message of the batch, and the trace of a batch is the
full iteration of its head followed by the trace of its tail. -/
theorem loop_trace_in_order (agent : Nat → PyValue → Except PyError String)
    (i : Nat) (msgs : List PyValue) :
    (loopTrace agent i msgs).Pairwise (fun a b => a.1 ≤ b.1) ∧
    (∀ p ∈ loopTrace agent i msgs, i ≤ p.1 ∧ p.1 < i + msgs.length) ∧
    (∀ v rest, loopTrace agent i (v :: rest) =
      (processMessage (agent i) v).map (fun e => (i, e))
        ++ loopTrace agent (i + 1) rest) :=
  ⟨loopTrace_pairwise agent i msgs, loopTrace_tag_bounds agent i msgs,
    fun _ _ => rfl⟩

/-- Witness for C7 on a concrete two-message batch. -/
theorem loop_trace_in_order_witness :
    (loopTrace (fun _ _ => Except.ok "r") 0
        [PyValue.str "a", PyValue.str "b"]).Pairwise
      (fun a b => a.1 ≤ b.1) ∧
    ((0 : Nat), Event.logReceived (PyValue.str "a")).1 < 0 + 2 := by
  have h := loop_trace_in_order (fun _ _ => Except.ok "r") 0
    [PyValue.str "a", PyValue.str "b"]
  refine ⟨h.1, ?_⟩
  exact (h.2.1 (0, Event.logReceived (PyValue.str "a")) (List.Mem.head _)).2
